import Mathlib

/-!
Verification of the LSP payload (de)serialization layer of `ra-multiplex`
(`src/lsp.rs`).  The Rust code defines a handful of serde-derived structs
(`InitializeParams`, `InitializationOptions`, `LspMuxOptions`,
`InitializeResult`, ...) whose decode/encode behaviour this development
embeds shallowly: JSON values are an inductive type, every serde
`Deserialize` impl becomes a `Json → Except String _` function and every
`Serialize` impl a `_ → Json` function, following the derived serde
semantics field by field (camelCase renames, `Option` fields defaulting to
`none` when missing, `skip_serializing_if` attributes, `#[serde(default)]`,
`#[serde(flatten)]` pass-through maps, unknown fields ignored on decode).
-/

namespace RaMultiplex

/-- JSON values as handled by `serde_json::Value`.  Objects are modelled as
association lists of key/value pairs.  Modelled from the spec for the order
aspect: the repository's `Cargo.toml` (which selects `serde_json` feature
flags such as `preserve_order`) is not under `src/`, and the spec states
that key order of pass-through maps is preserved, so objects keep insertion
order here.  Numbers are modelled as integers; none of the verified
properties involves floating point payloads. -/
inductive Json where
  | null
  | bool (b : Bool)
  | num (n : Int)
  | str (s : String)
  | arr (elems : List Json)
  | obj (fields : List (String × Json))

/-- First-match key lookup in a JSON object's field list, the access pattern
of `serde_json::Map::get` (real maps never hold duplicate keys). -/
def lookupKey (k : String) : List (String × Json) → Option Json
  | [] => none
  | (k', v) :: rest => if k = k' then some v else lookupKey k rest

/-- Lookup of a key in a JSON value, `none` on non-objects. -/
def Json.objLookup (j : Json) (k : String) : Option Json :=
  match j with
  | .obj fs => lookupKey k fs
  | _ => none

/-- Keys of a JSON object's field list. -/
def Json.objKeys (j : Json) : List String :=
  match j with
  | .obj fs => fs.map Prod.fst
  | _ => []

/-- Decoding of a Rust `String` field (serde: only a JSON string is
accepted). -/
def decodeString : Json → Except String String
  | .str s => .ok s
  | _ => .error "invalid type: expected a string"

/-- Decoding of an `Option<T>` value: serde maps `null` to `None` and
delegates anything else to `T`'s deserializer. -/
def decodeOpt (d : Json → Except String α) : Json → Except String (Option α)
  | .null => .ok none
  | v => (d v).map some

/-- A mandatory struct field: serde errors with `missing field` when the key
is absent. -/
def reqField (fs : List (String × Json)) (k : String)
    (d : Json → Except String α) : Except String α :=
  match lookupKey k fs with
  | some v => d v
  | none => .error ("missing field `" ++ k ++ "`")

/-- An `Option<T>` struct field: serde treats a missing key as `None`. -/
def optField (fs : List (String × Json)) (k : String)
    (d : Json → Except String α) : Except String (Option α) :=
  match lookupKey k fs with
  | some v => decodeOpt d v
  | none => .ok none

/-- Sequencing of fallible decoding steps, the serde-generated error
propagation (Rust's `?` operator): an error short-circuits, a success feeds
the next step. -/
def step (x : Except String α) (f : α → Except String β) : Except String β :=
  match x with
  | .error e => .error e
  | .ok a => f a

/-- Decoding of a `Vec<String>` (serde: a JSON array of strings). -/
def decodeStringList : Json → Except String (List String)
  | .arr xs => xs.mapM decodeString
  | _ => .error "invalid type: expected a sequence"

/-- `LspMuxOptions` from `src/lsp.rs`: the multiplexer's own configuration
block.  `version` and `server` are mandatory strings; `args` carries
`#[serde(default = "Vec::new")]`. -/
structure LspMuxOptions where
  version : String
  server : String
  args : List String
deriving DecidableEq

/-- Derived `Deserialize` for `LspMuxOptions` (no `rename_all`, so keys are
`version`, `server`, `args`; unknown keys are ignored; a missing `args`
defaults to the empty list). -/
def LspMuxOptions.decode : Json → Except String LspMuxOptions
  | .obj fs =>
    step (reqField fs "version" decodeString) fun version =>
    step (reqField fs "server" decodeString) fun server =>
    step (match lookupKey "args" fs with
          | some v => decodeStringList v
          | none => .ok []) fun args =>
    .ok ⟨version, server, args⟩
  | _ => .error "invalid type: expected struct LspMuxOptions"

/-- Derived `Serialize` for `LspMuxOptions`: all three fields are always
emitted, in declaration order. -/
def LspMuxOptions.encode (o : LspMuxOptions) : Json :=
  .obj [("version", .str o.version), ("server", .str o.server),
        ("args", .arr (o.args.map Json.str))]

/-- `InitializationOptions` from `src/lsp.rs`: the user-provided
initialization options.  `lsp_mux` (serialized as `lspMux` through
`rename_all = "camelCase"`) is optional and skipped when `None`;
`other_options` is the `#[serde(flatten)]` pass-through map collecting every
other key. -/
structure InitializationOptions where
  lsp_mux : Option LspMuxOptions
  other_options : List (String × Json)

/-- Derived `Deserialize` for `InitializationOptions`: the key `lspMux`, if
present, is consumed by `LspMuxOptions`' deserializer (with `null` giving
`None`); every other key lands, in order, in the flattened
`other_options` map. -/
def InitializationOptions.decode : Json → Except String InitializationOptions
  | .obj fs =>
    step (optField fs "lspMux" LspMuxOptions.decode) fun lsp_mux =>
    .ok ⟨lsp_mux, fs.filter (fun kv => kv.1 ≠ "lspMux")⟩
  | _ => .error "invalid type: expected a map"

/-- Derived `Serialize` for `InitializationOptions`: the named field
`lspMux` first (omitted when `None` by `skip_serializing_if`), then the
flattened `other_options` entries. -/
def InitializationOptions.encode (o : InitializationOptions) : Json :=
  .obj ((match o.lsp_mux with
         | some m => [("lspMux", m.encode)]
         | none => []) ++ o.other_options)

/-- `ClientInfo` from `src/lsp.rs` (`name` mandatory, `version` optional and
always emitted, as `null` when `None`). -/
structure ClientInfo where
  name : String
  version : Option String
deriving DecidableEq

/-- Derived `Deserialize` for `ClientInfo`. -/
def ClientInfo.decode : Json → Except String ClientInfo
  | .obj fs =>
    step (reqField fs "name" decodeString) fun name =>
    step (optField fs "version" decodeString) fun version =>
    .ok ⟨name, version⟩
  | _ => .error "invalid type: expected struct ClientInfo"

/-- Derived `Serialize` for `ClientInfo`. -/
def ClientInfo.encode (c : ClientInfo) : Json :=
  .obj [("name", .str c.name),
        ("version", match c.version with | some s => .str s | none => .null)]

/-- `TraceValue` from `src/lsp.rs`: a unit-variant enum serialized through
`rename_all = "camelCase"` as the strings `off`, `messages`, `verbose`. -/
inductive TraceValue where
  | off
  | messages
  | verbose
deriving DecidableEq

/-- Derived `Deserialize` for `TraceValue`. -/
def TraceValue.decode : Json → Except String TraceValue
  | .str "off" => .ok .off
  | .str "messages" => .ok .messages
  | .str "verbose" => .ok .verbose
  | _ => .error "unknown variant for TraceValue"

/-- Derived `Serialize` for `TraceValue`. -/
def TraceValue.encode : TraceValue → Json
  | .off => .str "off"
  | .messages => .str "messages"
  | .verbose => .str "verbose"

/-- `WorkspaceFolder` from `src/lsp.rs` (both fields mandatory strings). -/
structure WorkspaceFolder where
  uri : String
  name : String
deriving DecidableEq

/-- Derived `Deserialize` for `WorkspaceFolder`. -/
def WorkspaceFolder.decode : Json → Except String WorkspaceFolder
  | .obj fs =>
    step (reqField fs "uri" decodeString) fun uri =>
    step (reqField fs "name" decodeString) fun name =>
    .ok ⟨uri, name⟩
  | _ => .error "invalid type: expected struct WorkspaceFolder"

/-- Derived `Serialize` for `WorkspaceFolder`. -/
def WorkspaceFolder.encode (w : WorkspaceFolder) : Json :=
  .obj [("uri", .str w.uri), ("name", .str w.name)]

/-- Decoding of a `Vec<WorkspaceFolder>`. -/
def decodeWorkspaceFolderList : Json → Except String (List WorkspaceFolder)
  | .arr xs => xs.mapM WorkspaceFolder.decode
  | _ => .error "invalid type: expected a sequence"

/-- Decoding of a Rust `u64` (serde: an integer in the `u64` range). -/
def decodeU64 : Json → Except String Nat
  | .num n => if 0 ≤ n ∧ n < 2 ^ 64 then .ok n.toNat
              else .error "invalid value: out of range for u64"
  | _ => .error "invalid type: expected u64"

/-- `InitializeParams` from `src/lsp.rs`, serialized with
`rename_all = "camelCase"`.  `process_id` and `root_uri` are plain `Option`s
(always emitted, `null` when `None`); `client_info`, `locale`, `root_path`
and `trace` carry `skip_serializing_if = "Option::is_none"`;
`initialization_options` has no skip attribute; `workspace_folders` carries
`skip_serializing_if = "Vec::is_empty"` and no `#[serde(default)]`. -/
structure InitializeParams where
  process_id : Option Nat
  client_info : Option ClientInfo
  locale : Option String
  root_path : Option String
  root_uri : Option String
  initialization_options : Option InitializationOptions
  capabilities : Json
  trace : Option TraceValue
  workspace_folders : List WorkspaceFolder

/-- Derived `Deserialize` for `InitializeParams`: `Option` fields tolerate a
missing key, `capabilities` (a raw `serde_json::Value`) and
`workspaceFolders` are mandatory, unknown keys are ignored (there is no
flatten catch-all on this struct). -/
def InitializeParams.decode : Json → Except String InitializeParams
  | .obj fs =>
    step (optField fs "processId" decodeU64) fun process_id =>
    step (optField fs "clientInfo" ClientInfo.decode) fun client_info =>
    step (optField fs "locale" decodeString) fun locale =>
    step (optField fs "rootPath" decodeString) fun root_path =>
    step (optField fs "rootUri" decodeString) fun root_uri =>
    step (optField fs "initializationOptions" InitializationOptions.decode)
      fun initialization_options =>
    step (reqField fs "capabilities" Except.ok) fun capabilities =>
    step (optField fs "trace" TraceValue.decode) fun trace =>
    step (reqField fs "workspaceFolders" decodeWorkspaceFolderList)
      fun workspace_folders =>
    .ok ⟨process_id, client_info, locale, root_path, root_uri,
         initialization_options, capabilities, trace, workspace_folders⟩
  | _ => .error "invalid type: expected struct InitializeParams"

/-- Derived `Serialize` for `InitializeParams`, fields in declaration order;
skipped fields are omitted entirely. -/
def InitializeParams.encode (p : InitializeParams) : Json :=
  .obj ([("processId", match p.process_id with
                       | some n => .num (n : Int)
                       | none => .null)]
    ++ (match p.client_info with
        | some c => [("clientInfo", c.encode)]
        | none => [])
    ++ (match p.locale with
        | some s => [("locale", Json.str s)]
        | none => [])
    ++ (match p.root_path with
        | some s => [("rootPath", Json.str s)]
        | none => [])
    ++ [("rootUri", match p.root_uri with
                    | some s => .str s
                    | none => .null)]
    ++ [("initializationOptions", match p.initialization_options with
                                  | some o => o.encode
                                  | none => .null)]
    ++ [("capabilities", p.capabilities)]
    ++ (match p.trace with
        | some t => [("trace", t.encode)]
        | none => [])
    ++ (match p.workspace_folders with
        | [] => []
        | ws => [("workspaceFolders", .arr (ws.map WorkspaceFolder.encode))]))

/-- The nine keys the derived serde code for `InitializeParams` recognizes
and emits (camelCase renames of the struct's fields). -/
def knownInitializeParamsKeys : List String :=
  ["processId", "clientInfo", "locale", "rootPath", "rootUri",
   "initializationOptions", "capabilities", "trace", "workspaceFolders"]

/-- `ServerInfo` from `src/lsp.rs` (`name` mandatory, `version` optional and
always emitted, as `null` when `None`). -/
structure ServerInfo where
  name : String
  version : Option String
deriving DecidableEq

/-- Derived `Deserialize` for `ServerInfo`. -/
def ServerInfo.decode : Json → Except String ServerInfo
  | .obj fs =>
    step (reqField fs "name" decodeString) fun name =>
    step (optField fs "version" decodeString) fun version =>
    .ok ⟨name, version⟩
  | _ => .error "invalid type: expected struct ServerInfo"

/-- Derived `Serialize` for `ServerInfo`. -/
def ServerInfo.encode (s : ServerInfo) : Json :=
  .obj [("name", .str s.name),
        ("version", match s.version with | some v => .str v | none => .null)]

/-- `InitializeResult` from `src/lsp.rs`, serialized with
`rename_all = "camelCase"`: `capabilities` is a raw mandatory value,
`server_info` is optional and skipped when `None`.  There is no flatten
catch-all on this struct. -/
structure InitializeResult where
  capabilities : Json
  server_info : Option ServerInfo

/-- Derived `Deserialize` for `InitializeResult`: unknown keys are
ignored. -/
def InitializeResult.decode : Json → Except String InitializeResult
  | .obj fs =>
    step (reqField fs "capabilities" Except.ok) fun capabilities =>
    step (optField fs "serverInfo" ServerInfo.decode) fun server_info =>
    .ok ⟨capabilities, server_info⟩
  | _ => .error "invalid type: expected struct InitializeResult"

/-- Derived `Serialize` for `InitializeResult`. -/
def InitializeResult.encode (r : InitializeResult) : Json :=
  .obj ([("capabilities", r.capabilities)]
    ++ (match r.server_info with
        | some s => [("serverInfo", s.encode)]
        | none => []))

/-- Modelled from the spec: the error refusing a client whose declared
`lspMux` version differs from the proxy's build version.  The proxy/server
code performing the check is not under `src/` (which only holds the payload
types); the doc comment on `LspMuxOptions.version` states the server "will
refuse connections to mismatched clients", and the spec calls this
VersionMismatch, "surfaced to the offending client as an initialize
failure". -/
inductive AcceptError where
  | versionMismatch (declared expected : String)
deriving DecidableEq

/-- Modelled from the spec: a session's set of attached clients that
reached Ready, identified by connection id. -/
structure SessionClients where
  ready : List Nat
deriving DecidableEq

/-- Modelled from the spec: processing one client's handshake against the
proxy's version.  The version "is for now naively checked for equality"
(`src/lsp.rs` doc comment): on equality the client is attached and reaches
Ready; otherwise the connection is refused with an explicit version error
and no new session state is produced, leaving every other attached client
as it was. -/
def acceptClient (proxyVersion : String) (opts : LspMuxOptions) (cid : Nat)
    (s : SessionClients) : Except AcceptError SessionClients :=
  if opts.version = proxyVersion then .ok ⟨cid :: s.ready⟩
  else .error (.versionMismatch opts.version proxyVersion)

/-- Stripping the multiplexer's configuration block from decoded
initialization options and re-encoding.  The struct doc in `src/lsp.rs`
states the proxy "should remove them again before forwarding them to the
language server"; the call site performing the removal is outside `src/`,
so the operation is the evident composition: decode, drop `lsp_mux`,
encode. -/
def stripLspMux (v : Json) : Except String Json :=
  (InitializationOptions.decode v).map
    (fun io => InitializationOptions.encode { io with lsp_mux := none })

theorem step_ok_inv {α β : Type} {x : Except String α}
    {f : α → Except String β} {b : β}
    (h : step x f = .ok b) : ∃ a, x = .ok a ∧ f a = .ok b := by
  cases x with
  | error e => exact absurd h (by simp [step])
  | ok a => exact ⟨a, rfl, h⟩

theorem step_error {α β : Type} (e : String) (f : α → Except String β) :
    step (.error e) f = .error e := rfl

theorem step_ok {α β : Type} (a : α) (f : α → Except String β) :
    step (.ok a) f = f a := rfl

theorem lookupKey_eq_none {k : String} {fs : List (String × Json)} :
    lookupKey k fs = none ↔ ∀ kv ∈ fs, kv.1 ≠ k := by
  induction fs with
  | nil => simp [lookupKey]
  | cons hd tl ih =>
    obtain ⟨k', v⟩ := hd
    by_cases h : k = k'
    · subst h
      simp [lookupKey]
    · simp [lookupKey, h, ih, Ne.symm h]

theorem filter_self_of_filter {p : String × Json → Bool}
    {fs : List (String × Json)} :
    (fs.filter p).filter p = fs.filter p :=
  List.filter_eq_self.mpr (fun _ ha => (List.mem_filter.mp ha).2)

theorem initializationOptions_decode_encode_filter
    (fs : List (String × Json)) (io : InitializationOptions)
    (h : InitializationOptions.decode (Json.obj fs) = .ok io) :
    ∃ gs : List (String × Json), io.encode = Json.obj gs ∧
      gs.filter (fun kv => kv.1 ≠ "lspMux") =
        fs.filter (fun kv => kv.1 ≠ "lspMux") := by
  dsimp only [InitializationOptions.decode] at h
  obtain ⟨m, ho, h⟩ := step_ok_inv h
  simp only [Except.ok.injEq] at h
  subst h
  cases m with
  | none =>
    exact ⟨fs.filter (fun kv => kv.1 ≠ "lspMux"), rfl, filter_self_of_filter⟩
  | some mm =>
    refine ⟨("lspMux", mm.encode) :: fs.filter (fun kv => kv.1 ≠ "lspMux"),
            rfl, ?_⟩
    simp [List.filter_cons, filter_self_of_filter]

/-- C1: for every JSON object that decodes successfully as
`InitializationOptions`, the decode-then-encode round trip preserves every
non-`lspMux` key with its value, adding and removing none: the non-`lspMux`
entries of the re-encoded object are exactly those of the input, in
order. -/
theorem initializationOptions_roundtrip_preserves_other_keys
    (fs : List (String × Json)) (io : InitializationOptions)
    (h : InitializationOptions.decode (Json.obj fs) = .ok io) :
    ∃ gs : List (String × Json), io.encode = Json.obj gs ∧
      gs.filter (fun kv => kv.1 ≠ "lspMux") =
        fs.filter (fun kv => kv.1 ≠ "lspMux") :=
  initializationOptions_decode_encode_filter fs io h

theorem initializationOptions_roundtrip_witness :
    ∃ gs : List (String × Json),
      (InitializationOptions.mk none [("a", Json.num 1)]).encode = Json.obj gs ∧
      gs.filter (fun kv => kv.1 ≠ "lspMux") =
        [("a", Json.num 1)].filter (fun kv => kv.1 ≠ "lspMux") :=
  initializationOptions_roundtrip_preserves_other_keys
    [("a", Json.num 1)] ⟨none, [("a", Json.num 1)]⟩ rfl

theorem lspMuxOptions_decode_error_of_missing
    (gs : List (String × Json))
    (h : lookupKey "version" gs = none ∨ lookupKey "server" gs = none) :
    ∃ e, LspMuxOptions.decode (Json.obj gs) = .error e := by
  rcases h with hv | hs
  · refine ⟨"missing field `version`", ?_⟩
    dsimp only [LspMuxOptions.decode]
    simp [reqField, hv, step]
  · cases hv : reqField gs "version" decodeString with
    | error e =>
      refine ⟨e, ?_⟩
      dsimp only [LspMuxOptions.decode]
      rw [hv]
      rfl
    | ok v =>
      refine ⟨"missing field `server`", ?_⟩
      dsimp only [LspMuxOptions.decode]
      rw [hv, step_ok]
      simp [reqField, hs, step]

/-- C3: decoding `InitializationOptions` fails outright (no default is
supplied) when the `lspMux` block lacks its mandatory `version` field or
its mandatory `server` field. -/
theorem initializationOptions_lspMux_missing_field_fails
    (fs gs : List (String × Json))
    (hm : lookupKey "lspMux" fs = some (Json.obj gs))
    (h : lookupKey "version" gs = none ∨ lookupKey "server" gs = none) :
    ∃ e, InitializationOptions.decode (Json.obj fs) = .error e := by
  obtain ⟨e, he⟩ := lspMuxOptions_decode_error_of_missing gs h
  refine ⟨e, ?_⟩
  dsimp only [InitializationOptions.decode]
  have ho : optField fs "lspMux" LspMuxOptions.decode = .error e := by
    simp [optField, hm, decodeOpt, he, Except.map]
  rw [ho]
  rfl

theorem initializationOptions_lspMux_missing_field_fails_witness :
    (∃ e, InitializationOptions.decode
      (Json.obj [("lspMux", Json.obj [("server", Json.str "s")])]) = .error e) ∧
    (∃ e, InitializationOptions.decode
      (Json.obj [("lspMux", Json.obj [("version", Json.str "1")])]) = .error e) :=
  ⟨initializationOptions_lspMux_missing_field_fails
      [("lspMux", Json.obj [("server", Json.str "s")])]
      [("server", Json.str "s")] rfl (Or.inl rfl),
   initializationOptions_lspMux_missing_field_fails
      [("lspMux", Json.obj [("version", Json.str "1")])]
      [("version", Json.str "1")] rfl (Or.inr rfl)⟩

/-- C4: an `lspMux` block carrying `version` and `server` strings but no
`args` key decodes successfully, with `args` defaulting to the empty
list. -/
theorem lspMux_args_defaults_to_empty
    (gs : List (String × Json)) (v s : String)
    (hv : lookupKey "version" gs = some (Json.str v))
    (hs : lookupKey "server" gs = some (Json.str s))
    (ha : lookupKey "args" gs = none) :
    LspMuxOptions.decode (Json.obj gs) = .ok ⟨v, s, []⟩ := by
  dsimp only [LspMuxOptions.decode]
  simp [reqField, hv, hs, ha, decodeString, step]

theorem lspMux_args_defaults_to_empty_witness :
    LspMuxOptions.decode
      (Json.obj [("version", Json.str "1"), ("server", Json.str "srv")]) =
      .ok ⟨"1", "srv", []⟩ :=
  lspMux_args_defaults_to_empty
    [("version", Json.str "1"), ("server", Json.str "srv")]
    "1" "srv" rfl rfl rfl

/-- C5: stripping the multiplexer's configuration block is idempotent — on
a payload that already has no `lspMux` entry, decoding, dropping `lsp_mux`
and re-encoding returns the payload unchanged. -/
theorem strip_noop_on_already_stripped (fs : List (String × Json))
    (h : lookupKey "lspMux" fs = none) :
    stripLspMux (Json.obj fs) = .ok (Json.obj fs) := by
  have hfilter : fs.filter (fun kv => kv.1 ≠ "lspMux") = fs :=
    List.filter_eq_self.mpr (fun kv hm => by
      simpa using lookupKey_eq_none.mp h kv hm)
  dsimp only [stripLspMux, InitializationOptions.decode]
  have ho : optField fs "lspMux" LspMuxOptions.decode = .ok none := by
    simp [optField, h]
  rw [ho, hfilter]
  rfl

theorem strip_noop_on_already_stripped_witness :
    stripLspMux (Json.obj [("a", Json.num 1), ("b", Json.null)]) =
      .ok (Json.obj [("a", Json.num 1), ("b", Json.null)]) :=
  strip_noop_on_already_stripped [("a", Json.num 1), ("b", Json.null)] rfl

theorem lookupKey_of_mem_nodup {fs : List (String × Json)}
    (hnd : (fs.map Prod.fst).Nodup) {k : String} {v : Json}
    (hm : (k, v) ∈ fs) : lookupKey k fs = some v := by
  induction fs with
  | nil => cases hm
  | cons hd tl ih =>
    obtain ⟨k', v'⟩ := hd
    rw [List.map_cons, List.nodup_cons] at hnd
    rcases List.mem_cons.mp hm with heq | htl
    · cases heq
      simp [lookupKey]
    · by_cases hk : k = k'
      · subst hk
        exact absurd (List.mem_map.mpr ⟨(k, v), htl, rfl⟩) hnd.1
      · simpa [lookupKey, hk] using ih hnd.2 htl

theorem lookupKey_append_right {k : String} {l₁ l₂ : List (String × Json)}
    (h : lookupKey k l₁ = none) :
    lookupKey k (l₁ ++ l₂) = lookupKey k l₂ := by
  induction l₁ with
  | nil => rfl
  | cons hd tl ih =>
    obtain ⟨k', v⟩ := hd
    by_cases hk : k = k'
    · simp [lookupKey, hk] at h
    · simp only [lookupKey, hk, if_false, List.cons_append, if_neg hk] at h ⊢
      exact ih h

/-- C10: only the exact key `lspMux` is parsed as the multiplexer's
configuration when decoding `InitializationOptions`; any other key —
`lsp_mux`, `lspmux`, `lsp mux` included — is an ordinary option, stored in
the pass-through map and found unchanged in the re-encoded object. -/
theorem only_exact_lspMux_key_is_special
    (fs : List (String × Json)) (io : InitializationOptions)
    (hnd : (fs.map Prod.fst).Nodup)
    (h : InitializationOptions.decode (Json.obj fs) = .ok io) :
    (lookupKey "lspMux" fs = none → io.lsp_mux = none) ∧
    ∀ k v, (k, v) ∈ fs → k ≠ "lspMux" →
      (k, v) ∈ io.other_options ∧ io.encode.objLookup k = some v := by
  dsimp only [InitializationOptions.decode] at h
  obtain ⟨m, ho, h⟩ := step_ok_inv h
  simp only [Except.ok.injEq] at h
  subst h
  constructor
  · intro hnone
    simp [optField, hnone] at ho
    exact ho.symm
  · intro k v hm hk
    have hmem : (k, v) ∈ fs.filter (fun kv => kv.1 ≠ "lspMux") :=
      List.mem_filter.mpr ⟨hm, by simpa using hk⟩
    refine ⟨hmem, ?_⟩
    have hndf : ((fs.filter (fun kv => kv.1 ≠ "lspMux")).map Prod.fst).Nodup :=
      List.Nodup.sublist ((List.filter_sublist fs).map Prod.fst) hnd
    have hlook : lookupKey k (fs.filter (fun kv => kv.1 ≠ "lspMux")) = some v :=
      lookupKey_of_mem_nodup hndf hmem
    cases m with
    | none =>
      simpa [InitializationOptions.encode, Json.objLookup] using hlook
    | some mm =>
      simpa [InitializationOptions.encode, Json.objLookup, lookupKey, hk]
        using hlook

theorem only_exact_lspMux_key_is_special_witness :
    ("lsp_mux", Json.str "not the right key") ∈
      (InitializationOptions.mk
        (some ⟨"1", "some-language-server", ["a", "b", "c"]⟩)
        [("lsp_mux", Json.str "not the right key"),
         ("lspmux", Json.str "also not it"),
         ("lsp mux", Json.str "wrong one"),
         ("a", Json.num 1), ("b", Json.null),
         ("c", Json.obj []), ("d", Json.arr [])]).other_options ∧
    (InitializationOptions.mk
        (some ⟨"1", "some-language-server", ["a", "b", "c"]⟩)
        [("lsp_mux", Json.str "not the right key"),
         ("lspmux", Json.str "also not it"),
         ("lsp mux", Json.str "wrong one"),
         ("a", Json.num 1), ("b", Json.null),
         ("c", Json.obj []), ("d", Json.arr [])]).encode.objLookup "lsp_mux" =
      some (Json.str "not the right key") :=
  (only_exact_lspMux_key_is_special
    [("lspMux", Json.obj [("version", Json.str "1"),
                          ("server", Json.str "some-language-server"),
                          ("args", Json.arr [Json.str "a", Json.str "b", Json.str "c"])]),
     ("lsp_mux", Json.str "not the right key"),
     ("lspmux", Json.str "also not it"),
     ("lsp mux", Json.str "wrong one"),
     ("a", Json.num 1), ("b", Json.null),
     ("c", Json.obj []), ("d", Json.arr [])]
    ⟨some ⟨"1", "some-language-server", ["a", "b", "c"]⟩,
     [("lsp_mux", Json.str "not the right key"),
      ("lspmux", Json.str "also not it"),
      ("lsp mux", Json.str "wrong one"),
      ("a", Json.num 1), ("b", Json.null),
      ("c", Json.obj []), ("d", Json.arr [])]⟩
    (by decide) rfl).2 "lsp_mux" (Json.str "not the right key")
    (List.Mem.tail _ (List.Mem.head _)) (by decide)

theorem InitializeParams.decode_ok_inv {fs : List (String × Json)}
    {p : InitializeParams}
    (h : InitializeParams.decode (Json.obj fs) = .ok p) :
    optField fs "processId" decodeU64 = .ok p.process_id ∧
    optField fs "clientInfo" ClientInfo.decode = .ok p.client_info ∧
    optField fs "locale" decodeString = .ok p.locale ∧
    optField fs "rootPath" decodeString = .ok p.root_path ∧
    optField fs "rootUri" decodeString = .ok p.root_uri ∧
    optField fs "initializationOptions" InitializationOptions.decode =
      .ok p.initialization_options ∧
    reqField fs "capabilities" Except.ok = .ok p.capabilities ∧
    optField fs "trace" TraceValue.decode = .ok p.trace ∧
    reqField fs "workspaceFolders" decodeWorkspaceFolderList =
      .ok p.workspace_folders := by
  dsimp only [InitializeParams.decode] at h
  obtain ⟨x1, h1, h⟩ := step_ok_inv h
  obtain ⟨x2, h2, h⟩ := step_ok_inv h
  obtain ⟨x3, h3, h⟩ := step_ok_inv h
  obtain ⟨x4, h4, h⟩ := step_ok_inv h
  obtain ⟨x5, h5, h⟩ := step_ok_inv h
  obtain ⟨x6, h6, h⟩ := step_ok_inv h
  obtain ⟨x7, h7, h⟩ := step_ok_inv h
  obtain ⟨x8, h8, h⟩ := step_ok_inv h
  obtain ⟨x9, h9, h⟩ := step_ok_inv h
  cases h
  exact ⟨h1, h2, h3, h4, h5, h6, h7, h8, h9⟩

theorem InitializeParams.encode_objLookup_core (p : InitializeParams) :
    p.encode.objLookup "processId" =
      some (match p.process_id with
            | some n => Json.num (n : Int)
            | none => Json.null) ∧
    p.encode.objLookup "rootUri" =
      some (match p.root_uri with
            | some s => Json.str s
            | none => Json.null) ∧
    p.encode.objLookup "initializationOptions" =
      some (match p.initialization_options with
            | some o => o.encode
            | none => Json.null) ∧
    p.encode.objLookup "workspaceFolders" =
      (match p.workspace_folders with
       | [] => none
       | ws => some (Json.arr (ws.map WorkspaceFolder.encode))) := by
  obtain ⟨pid, ci, loc, rp, ru, io, cap, tr, ws⟩ := p
  cases ci <;> cases loc <;> cases rp <;> cases tr <;> cases ws <;>
    simp [InitializeParams.encode, Json.objLookup, lookupKey]

theorem InitializeParams.encode_objLookup_unknown (p : InitializeParams)
    (k : String) (hk : k ∉ knownInitializeParamsKeys) :
    p.encode.objLookup k = none := by
  simp only [knownInitializeParamsKeys, List.mem_cons,
             List.not_mem_nil, or_false, not_or] at hk
  obtain ⟨h1, h2, h3, h4, h5, h6, h7, h8, h9⟩ := hk
  obtain ⟨pid, ci, loc, rp, ru, io, cap, tr, ws⟩ := p
  cases ci <;> cases loc <;> cases rp <;> cases tr <;> cases ws <;>
    simp [InitializeParams.encode, Json.objLookup, lookupKey,
          h1, h2, h3, h4, h5, h6, h7, h8, h9]

/-- C9: the encoded `InitializeParams` object always contains the keys
`processId` and `rootUri` (with value `null` when the corresponding field
is `None`), so a decode-then-encode cycle on an input object lacking either
key inserts it with a `null` value. -/
theorem initializeParams_encode_always_has_processId_rootUri
    (p : InitializeParams) :
    p.encode.objLookup "processId" =
      some (match p.process_id with
            | some n => Json.num (n : Int)
            | none => Json.null) ∧
    p.encode.objLookup "rootUri" =
      some (match p.root_uri with
            | some s => Json.str s
            | none => Json.null) ∧
    (∀ fs, InitializeParams.decode (Json.obj fs) = .ok p →
       lookupKey "processId" fs = none →
       p.encode.objLookup "processId" = some Json.null) ∧
    (∀ fs, InitializeParams.decode (Json.obj fs) = .ok p →
       lookupKey "rootUri" fs = none →
       p.encode.objLookup "rootUri" = some Json.null) := by
  obtain ⟨c1, c2, -, -⟩ := InitializeParams.encode_objLookup_core p
  refine ⟨c1, c2, ?_, ?_⟩
  · intro fs hd hnone
    have h1 := (InitializeParams.decode_ok_inv hd).1
    simp only [optField, hnone, Except.ok.injEq] at h1
    rw [c1, ← h1]
  · intro fs hd hnone
    have h5 := (InitializeParams.decode_ok_inv hd).2.2.2.2.1
    simp only [optField, hnone, Except.ok.injEq] at h5
    rw [c2, ← h5]

theorem initializeParams_null_insertion_witness :
    (InitializeParams.mk none none none none none none Json.null
        none []).encode.objLookup "processId" = some Json.null ∧
    (InitializeParams.mk none none none none none none Json.null
        none []).encode.objLookup "rootUri" = some Json.null :=
  ⟨(initializeParams_encode_always_has_processId_rootUri
      ⟨none, none, none, none, none, none, Json.null, none, []⟩).2.2.1
      [("capabilities", Json.null), ("workspaceFolders", Json.arr [])] rfl rfl,
   (initializeParams_encode_always_has_processId_rootUri
      ⟨none, none, none, none, none, none, Json.null, none, []⟩).2.2.2
      [("capabilities", Json.null), ("workspaceFolders", Json.arr [])] rfl rfl⟩

/-- C8: decoding `InitializeParams` fails whenever the `workspaceFolders`
key is absent, while omitting every optional field is tolerated (an input
carrying only `capabilities` and `workspaceFolders` decodes); consequently
encoding a value whose `workspace_folders` list is empty omits the
`workspaceFolders` key, and that encode fails to decode back. -/
theorem workspaceFolders_absent_fails_and_empty_not_roundtrippable :
    (∀ fs, lookupKey "workspaceFolders" fs = none →
       ∃ e, InitializeParams.decode (Json.obj fs) = .error e) ∧
    (∀ c : Json, InitializeParams.decode
       (Json.obj [("capabilities", c), ("workspaceFolders", Json.arr [])]) =
       .ok ⟨none, none, none, none, none, none, c, none, []⟩) ∧
    (∀ p : InitializeParams, p.workspace_folders = [] →
       p.encode.objLookup "workspaceFolders" = none ∧
       ∃ e, InitializeParams.decode p.encode = .error e) := by
  have habs : ∀ fs, lookupKey "workspaceFolders" fs = none →
      ∃ e, InitializeParams.decode (Json.obj fs) = .error e := by
    intro fs hnone
    cases hd : InitializeParams.decode (Json.obj fs) with
    | error e => exact ⟨e, rfl⟩
    | ok p =>
      have h9 := (InitializeParams.decode_ok_inv hd).2.2.2.2.2.2.2.2
      simp [reqField, hnone] at h9
  refine ⟨habs, ?_, ?_⟩
  · intro c
    dsimp only [InitializeParams.decode]
    simp only [optField, reqField, lookupKey, step, decodeWorkspaceFolderList]
    rfl
  · intro p hws
    have hlook := (InitializeParams.encode_objLookup_core p).2.2.2
    rw [hws] at hlook
    refine ⟨hlook, ?_⟩
    obtain ⟨gs, hgs⟩ : ∃ gs, p.encode = Json.obj gs := ⟨_, rfl⟩
    rw [hgs] at hlook
    dsimp only [Json.objLookup] at hlook
    obtain ⟨e, he⟩ := habs gs hlook
    exact ⟨e, by rw [hgs]; exact he⟩

theorem workspaceFolders_requirement_witness :
    (∃ e, InitializeParams.decode
       (Json.obj [("capabilities", Json.null)]) = .error e) ∧
    (InitializeParams.mk none none none none none none Json.null
        none []).encode.objLookup "workspaceFolders" = none :=
  ⟨workspaceFolders_absent_fails_and_empty_not_roundtrippable.1
      [("capabilities", Json.null)] rfl,
   (workspaceFolders_absent_fails_and_empty_not_roundtrippable.2.2
      ⟨none, none, none, none, none, none, Json.null, none, []⟩ rfl).1⟩

/-- C2 fails on the code: the decode/re-encode cycle of `InitializeParams`
drops an unrecognized top-level key.  The input below decodes successfully
while carrying `extraKey`, and the re-encoded object no longer contains
it. -/
theorem initializeParams_roundtrip_drops_unknown_key :
    InitializeParams.decode (Json.obj
      [("capabilities", Json.obj []), ("workspaceFolders", Json.arr []),
       ("extraKey", Json.num 1)]) =
      .ok ⟨none, none, none, none, none, none, Json.obj [], none, []⟩ ∧
    (Json.obj [("capabilities", Json.obj []), ("workspaceFolders", Json.arr []),
       ("extraKey", Json.num 1)]).objLookup "extraKey" = some (Json.num 1) ∧
    (InitializeParams.mk none none none none none none (Json.obj []) none
       []).encode.objLookup "extraKey" = none :=
  ⟨rfl, rfl, rfl⟩

/-- C2 (amended): pass-through of unrecognized keys holds only inside the
`initializationOptions` block — its non-`lspMux` entries survive the
decode/re-encode cycle exactly, order and presence preserved — while
unrecognized keys at the top level of the initialize parameters are
dropped: the re-encoded object carries only the nine recognized keys. -/
theorem initializeParams_mux_block_scope
    (fs gs : List (String × Json)) (p : InitializeParams)
    (hd : InitializeParams.decode (Json.obj fs) = .ok p)
    (hio : lookupKey "initializationOptions" fs = some (Json.obj gs)) :
    (∃ hs, p.encode.objLookup "initializationOptions" = some (Json.obj hs) ∧
       hs.filter (fun kv => kv.1 ≠ "lspMux") =
         gs.filter (fun kv => kv.1 ≠ "lspMux")) ∧
    (∀ k, k ∉ knownInitializeParamsKeys → p.encode.objLookup k = none) := by
  refine ⟨?_, fun k hk => InitializeParams.encode_objLookup_unknown p k hk⟩
  have h6 := (InitializeParams.decode_ok_inv hd).2.2.2.2.2.1
  simp only [optField, hio] at h6
  cases hdec : InitializationOptions.decode (Json.obj gs) with
  | error e => simp [decodeOpt, hdec, Except.map] at h6
  | ok io =>
    have hio' : p.initialization_options = some io := by
      simp only [decodeOpt, hdec, Except.map, Except.ok.injEq] at h6
      exact h6.symm
    obtain ⟨hs, hencio, hfil⟩ :=
      initializationOptions_decode_encode_filter gs io hdec
    have hcore := (InitializeParams.encode_objLookup_core p).2.2.1
    rw [hio'] at hcore
    have hcore2 : p.encode.objLookup "initializationOptions" =
        some io.encode := by simpa using hcore
    rw [hencio] at hcore2
    exact ⟨hs, hcore2, hfil⟩

theorem initializeParams_mux_block_scope_witness :
    (∃ hs, (InitializeParams.mk none none none none none
        (some ⟨none, [("a", Json.num 1)]⟩) Json.null none []).encode.objLookup
          "initializationOptions" = some (Json.obj hs) ∧
       hs.filter (fun kv => kv.1 ≠ "lspMux") =
         [("a", Json.num 1)].filter (fun kv => kv.1 ≠ "lspMux")) ∧
    (InitializeParams.mk none none none none none
        (some ⟨none, [("a", Json.num 1)]⟩) Json.null none
        []).encode.objLookup "extraKey" = none :=
  ⟨(initializeParams_mux_block_scope
      [("capabilities", Json.null), ("workspaceFolders", Json.arr []),
       ("initializationOptions", Json.obj [("a", Json.num 1)])]
      [("a", Json.num 1)]
      ⟨none, none, none, none, none, some ⟨none, [("a", Json.num 1)]⟩,
       Json.null, none, []⟩ rfl rfl).1,
   (initializeParams_mux_block_scope
      [("capabilities", Json.null), ("workspaceFolders", Json.arr []),
       ("initializationOptions", Json.obj [("a", Json.num 1)])]
      [("a", Json.num 1)]
      ⟨none, none, none, none, none, some ⟨none, [("a", Json.num 1)]⟩,
       Json.null, none, []⟩ rfl rfl).2 "extraKey" (by decide)⟩

/-- C7 fails on the code for the server's initialize result: the
`InitializeResult` struct has no pass-through map, so an unknown field
survives decoding but is dropped by the decode-then-encode cycle. -/
theorem initializeResult_roundtrip_drops_unknown_field :
    InitializeResult.decode (Json.obj
      [("capabilities", Json.obj []), ("extra", Json.num 1)]) =
      .ok ⟨Json.obj [], none⟩ ∧
    (Json.obj [("capabilities", Json.obj []),
       ("extra", Json.num 1)]).objLookup "extra" = some (Json.num 1) ∧
    (InitializeResult.mk (Json.obj []) none).encode.objLookup "extra" =
      none :=
  ⟨rfl, rfl, rfl⟩

/-- C7 (amended): the preserved-unknown-fields mechanism applies to
`InitializationOptions`, not to `InitializeResult`: decoding an
`InitializeResult` tolerates unknown fields, and the decode-then-encode
cycle keeps the `capabilities` value exactly as received while every key
other than `capabilities` and `serverInfo` is dropped from the re-encoded
object. -/
theorem initializeResult_roundtrip_keeps_only_known_fields
    (fs : List (String × Json)) (r : InitializeResult)
    (h : InitializeResult.decode (Json.obj fs) = .ok r) :
    r.encode.objLookup "capabilities" = lookupKey "capabilities" fs ∧
    ∀ k, k ≠ "capabilities" → k ≠ "serverInfo" →
      r.encode.objLookup k = none := by
  dsimp only [InitializeResult.decode] at h
  obtain ⟨cap, h1, h⟩ := step_ok_inv h
  obtain ⟨si, h2, h⟩ := step_ok_inv h
  simp only [Except.ok.injEq] at h
  subst h
  constructor
  · cases hl : lookupKey "capabilities" fs with
    | none => simp [reqField, hl] at h1
    | some v =>
      simp only [reqField, hl, Except.ok.injEq] at h1
      subst h1
      cases si <;>
        simp [InitializeResult.encode, Json.objLookup, lookupKey]
  · intro k hk1 hk2
    cases si <;>
      simp [InitializeResult.encode, Json.objLookup, lookupKey, hk1, hk2,
            ServerInfo.encode]

theorem initializeResult_roundtrip_keeps_only_known_fields_witness :
    (InitializeResult.mk Json.null none).encode.objLookup "capabilities" =
      lookupKey "capabilities" [("capabilities", Json.null)] ∧
    (InitializeResult.mk Json.null none).encode.objLookup "offsetEncoding" =
      none :=
  ⟨(initializeResult_roundtrip_keeps_only_known_fields
      [("capabilities", Json.null)] ⟨Json.null, none⟩ rfl).1,
   (initializeResult_roundtrip_keeps_only_known_fields
      [("capabilities", Json.null)] ⟨Json.null, none⟩ rfl).2
      "offsetEncoding" (by decide) (by decide)⟩

/-- C6: a client declaring an `lspMux` version different from the proxy's
own version is refused with an explicit version-mismatch error: the
handshake returns that error rather than any Ready session state, so the
offending client never reaches Ready and the session's attached clients
are left exactly as they were. -/
theorem version_mismatch_refused (proxyVersion : String)
    (opts : LspMuxOptions) (cid : Nat) (s : SessionClients)
    (h : opts.version ≠ proxyVersion) :
    acceptClient proxyVersion opts cid s =
      .error (.versionMismatch opts.version proxyVersion) := by
  simp [acceptClient, h]

theorem version_mismatch_refused_witness :
    acceptClient "1.0" ⟨"2.0", "rust-analyzer", []⟩ 7 ⟨[1, 2]⟩ =
      .error (.versionMismatch "2.0" "1.0") :=
  version_mismatch_refused "1.0" ⟨"2.0", "rust-analyzer", []⟩ 7 ⟨[1, 2]⟩
    (by decide)

end RaMultiplex
